import Mathlib

/-!
# Verification of the SageMaker client library core logic

Shallow embedding of the retry/metrics invocation wrapper
(`SageMakerInference` in the README-embedded module), the training-job
polling loop (`src/src/sagemaker-training.ts`), the deployment
reconciler (`src/lib/base-deployment.ts`, shipped as `unnamed/part_001`)
and the layered configuration merge, together with theorems settling the
specification claims about them.

Conventions of the embedding:
* JS promises that resolve or reject are modelled as `Except String`
  (the `String` is the error message).
* Real-time data (timestamps, measured latencies) is dropped from the
  metrics record: the remaining fields (`success`, `endpointName`,
  `error`) are the ones the claims speak about.
* Side effects (issuing an attempt, sleeping, delivering a metrics event
  to the caller-supplied callback) are reified as an event trace
  returned next to the result, so counting and ordering claims become
  statements about the trace.
* JS numbers appearing in configuration (`maxAttempts`,
  `backoffMultiplier`, sleep durations) are modelled as `Nat`; sleep
  durations are in milliseconds exactly as in the source
  (`Math.pow(backoffMultiplier, retryCount) * 1000`).
-/

set_option autoImplicit false

universe u v w

/-- The observable part of an `InferenceMetrics` event: the success flag,
the endpoint name and the optional error message.  Timestamps and
latencies are real-time measurements and are omitted. -/
structure InferenceMetrics where
  success : Bool
  endpointName : String
  error : Option String
deriving Repr, DecidableEq

/-- One observable step of `executeWithRetry`: starting the k-th attempt
(0-indexed `retryCount`), sleeping for a backoff period (in
milliseconds), or delivering a metrics event to the metrics callback. -/
inductive RetryEvent where
  | attempt (retryCount : Nat)
  | sleep (ms : Nat)
  | metric (m : InferenceMetrics)
deriving Repr, DecidableEq

/-- Embedding of `SageMakerInference.recordMetrics`: the event reaches
the callback only when monitoring is enabled and a callback is present
(either on the effective monitoring config or as instance fallback);
the two flags abstract that presence test. -/
def recordMetrics (monitoringEnabled callbackPresent : Bool)
    (m : InferenceMetrics) : List RetryEvent :=
  if monitoringEnabled && callbackPresent then [RetryEvent.metric m] else []

/-- Embedding of `SageMakerInference.executeWithRetry`.  `op k` is the
outcome of the underlying operation on the attempt with
`retryCount = k` (a timeout of the race against the timer is just one
possible error).  On success it records a success metric and returns;
on failure with `retryCount < maxAttempts` it sleeps
`backoffMultiplier ^ retryCount * 1000` milliseconds and recurses with
`retryCount + 1`; once attempts are exhausted it records a failure
metric carrying the error message and rethrows. -/
def executeWithRetry {α : Type u} (op : Nat → Except String α)
    (maxAttempts backoffMultiplier : Nat)
    (monitoringEnabled callbackPresent : Bool) (endpointName : String)
    (retryCount : Nat) : Except String α × List RetryEvent :=
  match op retryCount with
  | Except.ok v =>
      (Except.ok v,
        RetryEvent.attempt retryCount ::
          recordMetrics monitoringEnabled callbackPresent
            ⟨true, endpointName, none⟩)
  | Except.error e =>
      if h : retryCount < maxAttempts then
        let rest := executeWithRetry op maxAttempts backoffMultiplier
          monitoringEnabled callbackPresent endpointName (retryCount + 1)
        (rest.1,
          RetryEvent.attempt retryCount ::
            RetryEvent.sleep (backoffMultiplier ^ retryCount * 1000) ::
              rest.2)
      else
        (Except.error e,
          RetryEvent.attempt retryCount ::
            recordMetrics monitoringEnabled callbackPresent
              ⟨false, endpointName, some e⟩)
termination_by maxAttempts + 1 - retryCount
decreasing_by omega

/-- Number of attempts recorded in a trace. -/
def attemptsIn (tr : List RetryEvent) : Nat :=
  (tr.filter fun e => match e with
    | RetryEvent.attempt _ => true
    | _ => false).length

/-- The backoff sleeps recorded in a trace, in order, in milliseconds. -/
def sleepsIn (tr : List RetryEvent) : List Nat :=
  tr.filterMap fun e => match e with
    | RetryEvent.sleep ms => some ms
    | _ => none

/-- The metrics events delivered to the callback, in order. -/
def metricsOf (tr : List RetryEvent) : List InferenceMetrics :=
  tr.filterMap fun e => match e with
    | RetryEvent.metric m => some m
    | _ => none

/-! ## Configuration model (constructor defaults and `getEffectiveConfig`)

Optional TypeScript fields become `Option` fields; a JS object spread
`\x7b ...a, ...b \x7d` keeps a field of `a` exactly when `b` does not
supply it, which is `Option.getD` per field once the left layer is
concrete.  `V` is the type of custom validators and `M` the type of
metrics callbacks: the merge never inspects them. -/

/-- The optional `retry` block of `SageMakerInferenceConfig` /
`InferenceCallOptions`. -/
structure RetryOptions where
  maxAttempts : Option Nat := none
  timeoutMs : Option Nat := none
  backoffMultiplier : Option Nat := none
deriving Repr, DecidableEq

/-- The optional `validation` block. -/
structure ValidationOptions (V : Type u) where
  enabled : Option Bool := none
  customValidator : Option V := none

/-- The optional `monitoring` block. -/
structure MonitoringOptions (M : Type v) where
  enabled : Option Bool := none
  metricsCallback : Option M := none

/-- The optional `batch` block of the instance configuration. -/
structure BatchOptions where
  enabled : Option Bool := none
  maxBatchSize : Option Nat := none
  concurrency : Option Nat := none
deriving Repr, DecidableEq

/-- The configuration object handed to the `SageMakerInference`
constructor. -/
structure SageMakerInferenceConfig (V : Type u) (M : Type v) where
  retry : RetryOptions := {}
  validation : ValidationOptions V := {}
  monitoring : MonitoringOptions M := {}
  batch : BatchOptions := {}

/-- Per-call options (`InferenceCallOptions`), restricted to the three
configuration blocks the merge claims are about. -/
structure InferenceCallOptions (V : Type u) (M : Type v) where
  retry : RetryOptions := {}
  validation : ValidationOptions V := {}
  monitoring : MonitoringOptions M := {}

/-- Retry settings after the constructor merge: always concrete. -/
structure RetryConfig where
  maxAttempts : Nat
  timeoutMs : Nat
  backoffMultiplier : Nat
deriving Repr, DecidableEq

/-- Validation settings after the constructor merge. -/
structure ValidationConfig (V : Type u) where
  enabled : Bool
  customValidator : Option V

/-- Monitoring settings after the constructor merge. -/
structure MonitoringConfig (M : Type v) where
  enabled : Bool
  metricsCallback : Option M

/-- Batch settings after the constructor merge. -/
structure BatchConfig where
  enabled : Bool
  maxBatchSize : Nat
  concurrency : Nat
deriving Repr, DecidableEq

/-- The instance configuration stored by the constructor. -/
structure InstanceConfig (V : Type u) (M : Type v) where
  retry : RetryConfig
  validation : ValidationConfig V
  monitoring : MonitoringConfig M
  batch : BatchConfig

/-- The effective per-call configuration computed by
`getEffectiveConfig`. -/
structure EffectiveConfig (V : Type u) (M : Type v) where
  retry : RetryConfig
  validation : ValidationConfig V
  monitoring : MonitoringConfig M

/-- Embedding of the `SageMakerInference` constructor: each block is the
built-in defaults overridden by the fields present in the supplied
configuration (`\x7b maxAttempts: 3, timeoutMs: 30000,
backoffMultiplier: 2, ...config.retry \x7d` and so on). -/
def mkInstanceConfig {V : Type u} {M : Type v}
    (config : SageMakerInferenceConfig V M) : InstanceConfig V M :=
  { retry :=
      { maxAttempts := config.retry.maxAttempts.getD 3
        timeoutMs := config.retry.timeoutMs.getD 30000
        backoffMultiplier := config.retry.backoffMultiplier.getD 2 }
    validation :=
      { enabled := config.validation.enabled.getD true
        customValidator := config.validation.customValidator }
    monitoring :=
      { enabled := config.monitoring.enabled.getD true
        metricsCallback := config.monitoring.metricsCallback }
    batch :=
      { enabled := config.batch.enabled.getD true
        maxBatchSize := config.batch.maxBatchSize.getD 10
        concurrency := config.batch.concurrency.getD 3 } }

/-- Embedding of `SageMakerInference.getEffectiveConfig`: per block, the
instance values overridden by the fields present in the call options. -/
def getEffectiveConfig {V : Type u} {M : Type v} (inst : InstanceConfig V M)
    (callOptions : InferenceCallOptions V M) : EffectiveConfig V M :=
  { retry :=
      { maxAttempts := callOptions.retry.maxAttempts.getD inst.retry.maxAttempts
        timeoutMs := callOptions.retry.timeoutMs.getD inst.retry.timeoutMs
        backoffMultiplier :=
          callOptions.retry.backoffMultiplier.getD inst.retry.backoffMultiplier }
    validation :=
      { enabled := callOptions.validation.enabled.getD inst.validation.enabled
        customValidator :=
          match callOptions.validation.customValidator with
          | some v => some v
          | none => inst.validation.customValidator }
    monitoring :=
      { enabled := callOptions.monitoring.enabled.getD inst.monitoring.enabled
        metricsCallback :=
          match callOptions.monitoring.metricsCallback with
          | some m => some m
          | none => inst.monitoring.metricsCallback } }

/-! ## Batch mode (`batchInvokeEndpoint`) -/

/-- `batchConfig.concurrency || 1` : a JS falsy concurrency (0) is
replaced by 1. -/
def normalizeConcurrency (c : Nat) : Nat :=
  if c = 0 then 1 else c

/-- One slicing step per unit of fuel: `chunksOfAux w fuel l` is the
window list the loop `for (let i = 0; i < payloads.length; i += w)`
produces, as long as `fuel` bounds the number of iterations (for
`w ≥ 1`, the length of `l` always does; for `w = 0` the source loop
never advances and the fuel cuts that divergence off). -/
def chunksOfAux {π : Type u} (w : Nat) : Nat → List π → List (List π)
  | _, [] => []
  | 0, _ :: _ => []
  | fuel + 1, p :: l =>
    (p :: l).take w :: chunksOfAux w fuel ((p :: l).drop w)

/-- The consecutive windows of size `w` the batch loop slices out of
the payload array. -/
def chunksOf {π : Type u} (w : Nat) (l : List π) : List (List π) :=
  chunksOfAux w l.length l

/-- Outcome of `Promise.all` over one window, with each payload run
through the (deterministic) single-invocation path: every call must
succeed for the window to succeed, and a failure makes the window fail
with the error of its first failing payload. -/
def windowResults {π : Type u} {α : Type v} (invoke : π → Except String α) :
    List π → Except String (List α)
  | [] => Except.ok []
  | p :: ps =>
    match invoke p with
    | Except.error e => Except.error e
    | Except.ok r =>
      match windowResults invoke ps with
      | Except.error e => Except.error e
      | Except.ok rs => Except.ok (r :: rs)

/-- Sequential processing of the windows: each window is issued as a
whole (it appears in the issue trace), awaited, and only then is the
next window issued; a failing window aborts, discarding the results
accumulated so far. -/
def runWindows {π : Type u} {α : Type v} (invoke : π → Except String α) :
    List (List π) → Except String (List α) × List (List π)
  | [] => (Except.ok [], [])
  | win :: wins =>
    match windowResults invoke win with
    | Except.error e => (Except.error e, [win])
    | Except.ok rs =>
      let rest := runWindows invoke wins
      (rest.1.map (fun others => rs ++ others), win :: rest.2)

/-- Embedding of `SageMakerInference.batchInvokeEndpoint`.  The checks
happen in source order: empty payload array first (resolving to `[]`),
the batch-enabled gate second, and only then the windowed processing
with window size `maxBatchSize * (concurrency || 1)`.  The second
component is the trace of windows issued to the remote endpoint. -/
def batchInvokeEndpoint {π : Type u} {α : Type v}
    (invoke : π → Except String α) (batch : BatchConfig)
    (payloads : List π) : Except String (List α) × List (List π) :=
  if payloads.isEmpty then (Except.ok [], [])
  else if !batch.enabled then
    (Except.error "Batch processing is not enabled", [])
  else
    runWindows invoke
      (chunksOf (batch.maxBatchSize * normalizeConcurrency batch.concurrency)
        payloads)

/-! ## Training-job polling (`SageMakerTraining.monitorTrainingJob`) -/

/-- The terminal statuses the polling loop stops on
(`["Completed", "Failed", "Stopped"].includes(status)`); statuses are
the raw strings the describe call reports. -/
def terminalStatuses : List String := ["Completed", "Failed", "Stopped"]

/-- One observable step of the polling loop: a describe call reading a
status, or a sleep (in milliseconds). -/
inductive PollEvent where
  | poll (status : String)
  | sleep (ms : Nat)
deriving Repr, DecidableEq

/-- Embedding of `SageMakerTraining.monitorTrainingJob`.  `statuses i`
is the status the i-th describe call reports.  The loop returns the
status as soon as it is terminal and otherwise sleeps 60000 ms and
polls again; `fuel` bounds the unbounded source loop (`none` stands for
not reaching a terminal status within `fuel` polls). -/
def monitorTrainingJob (statuses : Nat → String) :
    Nat → Nat → Option (String × List PollEvent)
  | 0, _ => none
  | fuel + 1, i =>
    let s := statuses i
    if s ∈ terminalStatuses then some (s, [PollEvent.poll s])
    else
      match monitorTrainingJob statuses fuel (i + 1) with
      | some (r, tr) =>
        some (r, PollEvent.poll s :: PollEvent.sleep 60000 :: tr)
      | none => none

/-- Number of describe calls recorded in a polling trace. -/
def pollsIn (tr : List PollEvent) : Nat :=
  (tr.filter fun e => match e with
    | PollEvent.poll _ => true
    | _ => false).length

/-- The sleeps recorded in a polling trace, in order, in milliseconds. -/
def pollSleepsIn (tr : List PollEvent) : List Nat :=
  tr.filterMap fun e => match e with
    | PollEvent.sleep ms => some ms
    | _ => none

/-! ## Training-job naming (`SageMakerTraining.train`) -/

/-- List-level test that `l` begins with `pat`. -/
def listStartsWith : List Char → List Char → Bool
  | _, [] => true
  | [], _ :: _ => false
  | a :: as, b :: bs => a = b && listStartsWith as bs

/-- List-level substring containment test. -/
def listFindSub : List Char → List Char → Bool
  | [], pat => pat.isEmpty
  | a :: as, pat => listStartsWith (a :: as) pat || listFindSub as pat

/-- `s.includes(pat)` of JS strings. -/
def strContains (s pat : String) : Bool :=
  listFindSub s.data pat.data

/-- `s.startsWith(pat)` of JS strings. -/
def strStarts (s pat : String) : Bool :=
  listStartsWith s.data pat.data

/-- The training-job name generated at submission time
(`src/src/sagemaker-training.ts`, `train`):
`service-framework-Date.now()`. -/
def trainingJobName (service framework : String) (now : Nat) : String :=
  service ++ "-" ++ framework ++ "-" ++ toString now

/-! ## Deployment reconciler (`BaseSageMakerDeployment.deploy`,
`unnamed/part_001`) -/

/-- A service error, as the deployment code observes it: a `name` and a
`message`, both inspected by substring matching. -/
structure SMError where
  name : String
  message : String
deriving Repr, DecidableEq

/-- The remote calls the deployment issues, for the call trace. -/
inductive DeployCall where
  | createModel
  | createEndpointConfig
  | describeEndpoint
  | updateEndpoint
  | createEndpoint
deriving Repr, DecidableEq

/-- The outcome each remote call would have if issued: the deployment
client as an oracle. -/
structure DeployClient where
  createModelR : Except SMError Unit
  createEndpointConfigR : Except SMError Unit
  describeEndpointR : Except SMError Unit
  updateEndpointR : Except SMError Unit
  createEndpointR : Except SMError Unit
deriving Repr

/-- The record `deploy` resolves with. -/
structure DeploymentResult where
  modelName : String
  endpointName : String
  status : String
deriving Repr, DecidableEq

/-- The deployment input fields that decide naming and the model-data
path. -/
structure ModelDeploymentInput where
  modelPath : Option String := none
  trainingJobName : Option String := none
deriving Repr, DecidableEq

/-- `path.basename` for the POSIX paths the code builds: the part after
the last slash. -/
def baseName (p : String) : String :=
  (p.splitOn "/").getLastD p

/-- Embedding of `BaseSageMakerDeployment.getS3ModelPath`. -/
def getS3ModelPath (bucket service model : String)
    (input : ModelDeploymentInput) : Except SMError String :=
  match input.modelPath with
  | some mp =>
    if strStarts mp "s3://" then Except.ok mp
    else
      Except.ok ("s3://" ++ bucket ++ "/" ++ service ++ "/" ++ model ++
        "/models/" ++ baseName mp)
  | none =>
    match input.trainingJobName with
    | none =>
      Except.error
        ⟨"Error", "Either modelPath or trainingJobName must be provided"⟩
    | some tj =>
      Except.ok ("s3://" ++ bucket ++ "/" ++ service ++ "/" ++ model ++
        "/" ++ tj ++ "/output/model.tar.gz")

/-- Embedding of the protected `createModel` step: a
"resource already exists" failure is swallowed and treated as success,
anything else propagates. -/
def createModelStep (c : DeployClient) : Except SMError Unit :=
  match c.createModelR with
  | Except.ok _ => Except.ok ()
  | Except.error e =>
    if strContains e.message "already exist" then Except.ok ()
    else Except.error e

/-- The endpoint-config creation step, with the same already-exists
swallowing. -/
def createConfigStep (c : DeployClient) : Except SMError Unit :=
  match c.createEndpointConfigR with
  | Except.ok _ => Except.ok ()
  | Except.error e =>
    if strContains e.message "already exist" then Except.ok ()
    else Except.error e

/-- The not-found discrimination of `endpointExists`: error name
`ResourceNotFound` or a message containing `Could not find endpoint`. -/
def isNotFoundError (e : SMError) : Bool :=
  e.name = "ResourceNotFound" ||
    strContains e.message "Could not find endpoint"

/-- Embedding of `BaseSageMakerDeployment.endpointExists`: describe the
endpoint, report `true` on success, `false` on a not-found error, and
propagate any other failure. -/
def endpointExists (c : DeployClient) : Except SMError Bool :=
  match c.describeEndpointR with
  | Except.ok _ => Except.ok true
  | Except.error e =>
    if isNotFoundError e then Except.ok false else Except.error e

/-- Embedding of `BaseSageMakerDeployment.deploy` (`unnamed/part_001`).
`resourceId` stands for the `Date.now()-random` identifier
`generateResourceId` draws.  The second component is the trace of
remote calls issued, in order. -/
def deploy (c : DeployClient) (service model resourceId : String)
    (bucket : String) (input : ModelDeploymentInput) :
    Except SMError DeploymentResult × List DeployCall :=
  let base := input.trainingJobName.getD
    (service ++ "-" ++ model ++ "-" ++ resourceId)
  let modelName := base ++ "-model"
  let endpointName := service ++ "-" ++ model ++ "-endpoint"
  match getS3ModelPath bucket service model input with
  | Except.error e => (Except.error e, [])
  | Except.ok _ =>
    match createModelStep c with
    | Except.error e => (Except.error e, [DeployCall.createModel])
    | Except.ok _ =>
      match createConfigStep c with
      | Except.error e =>
        (Except.error e,
          [DeployCall.createModel, DeployCall.createEndpointConfig])
      | Except.ok _ =>
        match endpointExists c with
        | Except.error e =>
          (Except.error e,
            [DeployCall.createModel, DeployCall.createEndpointConfig,
              DeployCall.describeEndpoint])
        | Except.ok true =>
          match c.updateEndpointR with
          | Except.error e =>
            (Except.error e,
              [DeployCall.createModel, DeployCall.createEndpointConfig,
                DeployCall.describeEndpoint, DeployCall.updateEndpoint])
          | Except.ok _ =>
            (Except.ok ⟨modelName, endpointName, "Updated"⟩,
              [DeployCall.createModel, DeployCall.createEndpointConfig,
                DeployCall.describeEndpoint, DeployCall.updateEndpoint])
        | Except.ok false =>
          match c.createEndpointR with
          | Except.error e =>
            (Except.error e,
              [DeployCall.createModel, DeployCall.createEndpointConfig,
                DeployCall.describeEndpoint, DeployCall.createEndpoint])
          | Except.ok _ =>
            (Except.ok ⟨modelName, endpointName, "Created"⟩,
              [DeployCall.createModel, DeployCall.createEndpointConfig,
                DeployCall.describeEndpoint, DeployCall.createEndpoint])

/-- Occurrences of one remote call kind in a deployment trace. -/
def countCalls (tr : List DeployCall) (k : DeployCall) : Nat :=
  (tr.filter fun e => e = k).length

/-! ## Single invocation (`invokeEndpoint`): response assembly,
validation, output transform

The response pipeline manipulates untyped JS values (the parsed wire
payload and the assembled response object flow through the same
`transformOutput : any -> any`), so JS values are embedded as one
inductive type.  `undefined` is identified with `null`, which the
claims never distinguish. -/

/-- A JS value as the inference pipeline sees it. -/
inductive JVal where
  | jnull
  | jbool (b : Bool)
  | jnum (n : Int)
  | jstr (s : String)
  | jarr (xs : List JVal)
  | jobj (fields : List (String × JVal))

/-- JS truthiness of an embedded value. -/
def jsTruthy : JVal → Bool
  | JVal.jnull => false
  | JVal.jbool b => b
  | JVal.jnum n => !(n = 0)
  | JVal.jstr s => !(s = "")
  | JVal.jarr _ => true
  | JVal.jobj _ => true

/-- `Array.isArray(v) && v.length === 0`. -/
def isEmptyArr : JVal → Bool
  | JVal.jarr [] => true
  | _ => false

/-- Property access `v[key]` on a JS value (`undefined`, i.e. `jnull`,
when absent or not an object). -/
def objGet (v : JVal) (key : String) : JVal :=
  match v with
  | JVal.jobj fields =>
    match fields.lookup key with
    | some w => w
    | none => JVal.jnull
  | _ => JVal.jnull

/-- An optional string field of the assembled response (absent becomes
`jnull`). -/
def optStr : Option String → JVal
  | some s => JVal.jstr s
  | none => JVal.jnull

/-- Embedding of `SageMakerInference.validateResponse`: nothing when
validation is disabled; a supplied custom predicate decides alone;
otherwise the default rule rejects falsy values and empty arrays. -/
def validateResponse (response : JVal) (enabled : Bool)
    (customValidator : Option (JVal → Bool)) : Except String Unit :=
  if !enabled then Except.ok ()
  else
    match customValidator with
    | some v =>
      if !(v response) then
        Except.error "Custom validation failed for response"
      else Except.ok ()
    | none =>
      if !(jsTruthy response) || isEmptyArr response then
        Except.error "Invalid response received from endpoint"
      else Except.ok ()

/-- The response object assembled inside the retried operation of
`invokeEndpoint`: the parsed wire payload already run through
`transformOutput` in the `data` field, next to the targeting metadata
and the optional explanation read off the parsed payload. -/
def assembleResponse (transformOutput : JVal → JVal) (parsed : JVal)
    (inferenceId : String) (targetModel targetVariant : Option String)
    (enableExplanations : Bool) : JVal :=
  JVal.jobj
    [("data", transformOutput parsed),
     ("inferenceId", JVal.jstr inferenceId),
     ("targetModel", optStr targetModel),
     ("targetVariant", optStr targetVariant),
     ("explanation",
       if enableExplanations then objGet parsed "explanation"
       else JVal.jnull)]

/-- The operation `invokeEndpoint` hands to the retry wrapper: one
remote call (whose parsed JSON body on the attempt with
`retryCount = k` is `wire k`), followed by the response-object
assembly. -/
def invokeOp (wire : Nat → Except String JVal)
    (transformOutput : JVal → JVal) (inferenceId : String)
    (targetModel targetVariant : Option String)
    (enableExplanations : Bool) : Nat → Except String JVal := fun k =>
  match wire k with
  | Except.error e => Except.error e
  | Except.ok parsed =>
    Except.ok (assembleResponse transformOutput parsed inferenceId
      targetModel targetVariant enableExplanations)

/-- Embedding of `SageMakerInference.invokeEndpoint`.  The retried
operation assembles the response object; validation runs once on the
value `executeWithRetry` returns, after all retrying is over, and a
passing response is run through `transformOutput` once more before
being returned. -/
def invokeEndpoint (wire : Nat → Except String JVal)
    (maxAttempts backoffMultiplier : Nat)
    (monitoringEnabled callbackPresent : Bool) (endpointName : String)
    (transformOutput : JVal → JVal) (validationEnabled : Bool)
    (customValidator : Option (JVal → Bool)) (inferenceId : String)
    (targetModel targetVariant : Option String)
    (enableExplanations : Bool) : Except String JVal × List RetryEvent :=
  match executeWithRetry
      (invokeOp wire transformOutput inferenceId targetModel targetVariant
        enableExplanations)
      maxAttempts backoffMultiplier monitoringEnabled callbackPresent
      endpointName 0 with
  | (Except.error e, tr) => (Except.error e, tr)
  | (Except.ok response, tr) =>
    if validationEnabled then
      match validateResponse response validationEnabled customValidator with
      | Except.error e => (Except.error e, tr)
      | Except.ok _ => (Except.ok (transformOutput response), tr)
    else (Except.ok (transformOutput response), tr)

/-! ## Theorems -/

theorem attemptsIn_append (a b : List RetryEvent) :
    attemptsIn (a ++ b) = attemptsIn a + attemptsIn b := by
  simp [attemptsIn, List.filter_append]

theorem sleepsIn_append (a b : List RetryEvent) :
    sleepsIn (a ++ b) = sleepsIn a ++ sleepsIn b := by
  simp [sleepsIn, List.filterMap_append]

theorem metricsOf_append (a b : List RetryEvent) :
    metricsOf (a ++ b) = metricsOf a ++ metricsOf b := by
  simp [metricsOf, List.filterMap_append]

theorem attemptsIn_pairs (ks : List Nat) (g : Nat → Nat) :
    attemptsIn (ks.flatMap fun k =>
      [RetryEvent.attempt k, RetryEvent.sleep (g k)]) = ks.length := by
  induction ks with
  | nil => rfl
  | cons k ks ih =>
    simp only [List.flatMap_cons, attemptsIn_append, ih]
    simp [attemptsIn, List.filter]
    omega

theorem sleepsIn_pairs (ks : List Nat) (g : Nat → Nat) :
    sleepsIn (ks.flatMap fun k =>
      [RetryEvent.attempt k, RetryEvent.sleep (g k)]) = ks.map g := by
  induction ks with
  | nil => rfl
  | cons k ks ih =>
    simp only [List.flatMap_cons, sleepsIn_append, ih]
    rfl

theorem metricsOf_pairs (ks : List Nat) (g : Nat → Nat) :
    metricsOf (ks.flatMap fun k =>
      [RetryEvent.attempt k, RetryEvent.sleep (g k)]) = [] := by
  induction ks with
  | nil => rfl
  | cons k ks ih =>
    simp only [List.flatMap_cons, metricsOf_append, ih]
    rfl

theorem attemptsIn_recordMetrics (monE cb : Bool) (m : InferenceMetrics) :
    attemptsIn (recordMetrics monE cb m) = 0 := by
  cases monE <;> cases cb <;> rfl

theorem sleepsIn_recordMetrics (monE cb : Bool) (m : InferenceMetrics) :
    sleepsIn (recordMetrics monE cb m) = [] := by
  cases monE <;> cases cb <;> rfl

theorem metricsOf_recordMetrics (monE cb : Bool) (m : InferenceMetrics) :
    metricsOf (recordMetrics monE cb m) =
      if monE && cb then [m] else [] := by
  cases monE <;> cases cb <;> rfl

/-- Behaviour of `executeWithRetry` from an arbitrary starting
`retryCount` when every attempt fails: the remaining trace interleaves
attempts `c, c+1, ..., N` with the backoff sleeps, and the error of
attempt `N` comes back. -/
theorem executeWithRetry_allFail_from {α : Type u} (op : Nat → Except String α)
    (errs : Nat → String) (N m : Nat) (monE cb : Bool) (ep : String)
    (hop : ∀ k, op k = Except.error (errs k)) :
    ∀ d c, c + d = N →
      executeWithRetry op N m monE cb ep c =
        (Except.error (errs N),
          (List.range' c d).flatMap
              (fun k =>
                [RetryEvent.attempt k, RetryEvent.sleep (m ^ k * 1000)]) ++
            RetryEvent.attempt N ::
              recordMetrics monE cb ⟨false, ep, some (errs N)⟩) := by
  intro d
  induction d with
  | zero =>
    intro c hc
    have hcN : c = N := by omega
    subst hcN
    unfold executeWithRetry
    rw [hop c]
    simp
  | succ d ih =>
    intro c hc
    have hlt : c < N := by omega
    unfold executeWithRetry
    rw [hop c]
    simp only [hlt, dif_pos]
    rw [ih (c + 1) (by omega)]
    simp [List.range'_succ]

/-- Claim C1: with `maxAttempts = N`, an operation that fails on every
attempt is attempted exactly `N + 1` times (the initial call plus `N`
retries); after the k-th failed attempt (0-indexed, for every `k < N`)
the wrapper sleeps `backoffMultiplier ^ k` seconds
(`backoffMultiplier ^ k * 1000` milliseconds), and the error of the
last attempt is surfaced to the caller. -/
theorem executeWithRetry_always_failing {α : Type u}
    (op : Nat → Except String α) (errs : Nat → String) (N m : Nat)
    (monE cb : Bool) (ep : String)
    (hop : ∀ k, op k = Except.error (errs k)) :
    (executeWithRetry op N m monE cb ep 0).1 = Except.error (errs N) ∧
      attemptsIn (executeWithRetry op N m monE cb ep 0).2 = N + 1 ∧
      sleepsIn (executeWithRetry op N m monE cb ep 0).2 =
        (List.range N).map (fun k => m ^ k * 1000) := by
  have h := executeWithRetry_allFail_from op errs N m monE cb ep hop N 0
    (by omega)
  rw [h]
  refine ⟨rfl, ?_, ?_⟩
  · show attemptsIn ((List.range' 0 N).flatMap _ ++
      RetryEvent.attempt N :: recordMetrics _ _ _) = N + 1
    rw [show (RetryEvent.attempt N :: recordMetrics monE cb
        ⟨false, ep, some (errs N)⟩) =
      [RetryEvent.attempt N] ++ recordMetrics monE cb
        ⟨false, ep, some (errs N)⟩ from rfl]
    rw [attemptsIn_append, attemptsIn_append, attemptsIn_pairs,
      attemptsIn_recordMetrics]
    simp [attemptsIn]
  · show sleepsIn ((List.range' 0 N).flatMap _ ++
      RetryEvent.attempt N :: recordMetrics _ _ _) = _
    rw [show (RetryEvent.attempt N :: recordMetrics monE cb
        ⟨false, ep, some (errs N)⟩) =
      [RetryEvent.attempt N] ++ recordMetrics monE cb
        ⟨false, ep, some (errs N)⟩ from rfl]
    rw [sleepsIn_append, sleepsIn_append, sleepsIn_pairs,
      sleepsIn_recordMetrics, List.range_eq_range']
    simp [sleepsIn]

/-- Witness for C1 at `N = 2`, `m = 3`: three attempts, sleeps of 1 and
3 seconds, and the error of attempt 2 surfaced. -/
theorem executeWithRetry_always_failing_witness :
    (executeWithRetry (α := Nat)
        (fun k => Except.error (toString k)) 2 3 true true "ep" 0).1 =
        Except.error "2" ∧
      attemptsIn (executeWithRetry (α := Nat)
        (fun k => Except.error (toString k)) 2 3 true true "ep" 0).2 = 3 ∧
      sleepsIn (executeWithRetry (α := Nat)
        (fun k => Except.error (toString k)) 2 3 true true "ep" 0).2 =
        (List.range 2).map (fun k => 3 ^ k * 1000) :=
  executeWithRetry_always_failing (fun k => Except.error (toString k))
    (fun k => toString k) 2 3 true true "ep" (fun _ => rfl)

/-- Behaviour of `executeWithRetry` from an arbitrary starting
`retryCount` when every attempt before `k` fails and attempt `k`
succeeds: the remaining trace interleaves the failing attempts with
their backoff sleeps, ends with attempt `k` and a success metric, and
the value comes back. -/
theorem executeWithRetry_succeeds_from {α : Type u}
    (op : Nat → Except String α) (errs : Nat → String) (k : Nat) (v : α)
    (N m : Nat) (monE cb : Bool) (ep : String) (hkN : k ≤ N)
    (hfail : ∀ j, j < k → op j = Except.error (errs j))
    (hok : op k = Except.ok v) :
    ∀ d c, c + d = k →
      executeWithRetry op N m monE cb ep c =
        (Except.ok v,
          (List.range' c d).flatMap
              (fun j =>
                [RetryEvent.attempt j, RetryEvent.sleep (m ^ j * 1000)]) ++
            RetryEvent.attempt k ::
              recordMetrics monE cb ⟨true, ep, none⟩) := by
  intro d
  induction d with
  | zero =>
    intro c hc
    have hck : c = k := by omega
    subst hck
    unfold executeWithRetry
    rw [hok]
    simp
  | succ d ih =>
    intro c hc
    have hck : c < k := by omega
    unfold executeWithRetry
    rw [hfail c hck]
    by_cases hcN : c < N
    · simp only [hcN, dif_pos]
      rw [ih (c + 1) (by omega)]
      simp [List.range'_succ]
    · exact absurd hkN (by omega)

/-- Claim C4: through the retry wrapper, each terminal outcome yields
exactly one metrics event whose success flag matches the outcome.  A
call that succeeds on attempt `k` (after `k` failures) delivers exactly
the one success event and no failure event to the callback, and a call
whose every attempt fails delivers exactly the one failure event
carrying the message of the last error and no success event. -/
theorem executeWithRetry_metrics_once {α : Type u}
    (op : Nat → Except String α) (errs : Nat → String) (N m : Nat)
    (ep : String) :
    (∀ k v, k ≤ N → (∀ j, j < k → op j = Except.error (errs j)) →
      op k = Except.ok v →
      metricsOf (executeWithRetry op N m true true ep 0).2 =
        [⟨true, ep, none⟩]) ∧
    ((∀ j, op j = Except.error (errs j)) →
      metricsOf (executeWithRetry op N m true true ep 0).2 =
        [⟨false, ep, some (errs N)⟩]) := by
  constructor
  · intro k v hkN hfail hok
    rw [executeWithRetry_succeeds_from op errs k v N m true true ep hkN
      hfail hok k 0 (by omega)]
    show metricsOf ((List.range' 0 k).flatMap _ ++
      RetryEvent.attempt k :: recordMetrics _ _ _) = _
    rw [show (RetryEvent.attempt k :: recordMetrics true true
        (⟨true, ep, none⟩ : InferenceMetrics)) =
      [RetryEvent.attempt k] ++ recordMetrics true true ⟨true, ep, none⟩
      from rfl]
    rw [metricsOf_append, metricsOf_append, metricsOf_pairs,
      metricsOf_recordMetrics]
    rfl
  · intro hop
    rw [executeWithRetry_allFail_from op errs N m true true ep hop N 0
      (by omega)]
    show metricsOf ((List.range' 0 N).flatMap _ ++
      RetryEvent.attempt N :: recordMetrics _ _ _) = _
    rw [show (RetryEvent.attempt N :: recordMetrics true true
        (⟨false, ep, some (errs N)⟩ : InferenceMetrics)) =
      [RetryEvent.attempt N] ++ recordMetrics true true
        ⟨false, ep, some (errs N)⟩ from rfl]
    rw [metricsOf_append, metricsOf_append, metricsOf_pairs,
      metricsOf_recordMetrics]
    rfl

/-- Witness for C4: a call succeeding on attempt 1 of 3 delivers the
single success event; a call failing on all 4 attempts delivers the
single failure event with the last error message. -/
theorem executeWithRetry_metrics_once_witness :
    metricsOf (executeWithRetry
        (fun k => if k = 0 then Except.error "e0" else Except.ok (42 : Nat))
        3 2 true true "ep" 0).2 = [⟨true, "ep", none⟩] ∧
      metricsOf (executeWithRetry (α := Nat)
        (fun k => Except.error ("x" ++ toString k))
        3 2 true true "ep" 0).2 = [⟨false, "ep", some "x3"⟩] := by
  constructor
  · exact (executeWithRetry_metrics_once
      (fun k => if k = 0 then Except.error "e0" else Except.ok (42 : Nat))
      (fun _ => "e0") 3 2 "ep").1 1 42 (by omega)
      (fun j hj => by
        have hj0 : j = 0 := by omega
        subst hj0
        rfl)
      rfl
  · exact (executeWithRetry_metrics_once (α := Nat)
      (fun k => Except.error ("x" ++ toString k))
      (fun k => "x" ++ toString k) 3 2 "ep").2 (fun _ => rfl)

theorem pollsIn_append (a b : List PollEvent) :
    pollsIn (a ++ b) = pollsIn a + pollsIn b := by
  simp [pollsIn, List.filter_append]

theorem pollSleepsIn_append (a b : List PollEvent) :
    pollSleepsIn (a ++ b) = pollSleepsIn a ++ pollSleepsIn b := by
  simp [pollSleepsIn, List.filterMap_append]

theorem pollsIn_pairs (f : Nat → String) (ks : List Nat) :
    pollsIn (ks.flatMap fun j =>
      [PollEvent.poll (f j), PollEvent.sleep 60000]) = ks.length := by
  induction ks with
  | nil => rfl
  | cons k ks ih =>
    simp only [List.flatMap_cons, pollsIn_append, ih]
    simp [pollsIn, List.filter]
    omega

theorem pollSleepsIn_pairs (f : Nat → String) (ks : List Nat) :
    pollSleepsIn (ks.flatMap fun j =>
      [PollEvent.poll (f j), PollEvent.sleep 60000]) =
      List.replicate ks.length 60000 := by
  induction ks with
  | nil => rfl
  | cons k ks ih =>
    simp only [List.flatMap_cons, pollSleepsIn_append, ih]
    rfl

/-- Behaviour of the polling loop from the i-th describe call on, when
the first terminal status sits at index `k`. -/
theorem monitorTrainingJob_from (statuses : Nat → String) (k : Nat)
    (hk : statuses k ∈ terminalStatuses)
    (hlt : ∀ j, j < k → statuses j ∉ terminalStatuses) :
    ∀ d c fuel, c + d = k → d < fuel →
      monitorTrainingJob statuses fuel c =
        some (statuses k,
          (List.range' c d).flatMap
              (fun j => [PollEvent.poll (statuses j), PollEvent.sleep 60000]) ++
            [PollEvent.poll (statuses k)]) := by
  intro d
  induction d with
  | zero =>
    intro c fuel hc hfuel
    have hck : c = k := by omega
    subst hck
    match fuel, hfuel with
    | f + 1, _ =>
      simp [monitorTrainingJob, hk]
  | succ d ih =>
    intro c fuel hc hfuel
    have hck : c < k := by omega
    match fuel, hfuel with
    | f + 1, hfuel =>
      have hnt := hlt c hck
      simp only [monitorTrainingJob, hnt, if_neg, ite_false]
      rw [ih (c + 1) f (by omega) (by omega)]
      simp [List.range'_succ]

/-- Claim C2: for every status sequence whose first terminal status
(member of `\x7bCompleted, Failed, Stopped\x7d`) sits at describe call
`k`, the polling loop returns exactly that status after `k + 1` describe
calls, with `k` sleeps of the fixed 60-second interval (60000 ms each)
between consecutive polls and no backoff. -/
theorem monitorTrainingJob_returns_first_terminal (statuses : Nat → String)
    (k fuel : Nat) (hk : statuses k ∈ terminalStatuses)
    (hlt : ∀ j, j < k → statuses j ∉ terminalStatuses) (hfuel : k < fuel) :
    monitorTrainingJob statuses fuel 0 =
      some (statuses k,
        (List.range' 0 k).flatMap
            (fun j => [PollEvent.poll (statuses j), PollEvent.sleep 60000]) ++
          [PollEvent.poll (statuses k)]) ∧
      pollsIn ((List.range' 0 k).flatMap
            (fun j => [PollEvent.poll (statuses j), PollEvent.sleep 60000]) ++
          [PollEvent.poll (statuses k)]) = k + 1 ∧
      pollSleepsIn ((List.range' 0 k).flatMap
            (fun j => [PollEvent.poll (statuses j), PollEvent.sleep 60000]) ++
          [PollEvent.poll (statuses k)]) = List.replicate k 60000 := by
  refine ⟨monitorTrainingJob_from statuses k hk hlt k 0 fuel (by omega)
    hfuel, ?_, ?_⟩
  · rw [pollsIn_append, pollsIn_pairs]
    simp [pollsIn]
  · rw [pollSleepsIn_append, pollSleepsIn_pairs]
    simp [pollSleepsIn]

/-- Witness for C2 at the status sequence [Pending, Pending, Completed]:
`Completed` comes back after exactly 3 describe calls and 2 sleeps of
60000 ms. -/
theorem monitorTrainingJob_returns_first_terminal_witness :
    monitorTrainingJob
        (fun i => if i < 2 then "Pending" else "Completed") 3 0 =
      some ("Completed",
        [PollEvent.poll "Pending", PollEvent.sleep 60000,
         PollEvent.poll "Pending", PollEvent.sleep 60000,
         PollEvent.poll "Completed"]) ∧
      pollsIn
        [PollEvent.poll "Pending", PollEvent.sleep 60000,
         PollEvent.poll "Pending", PollEvent.sleep 60000,
         PollEvent.poll "Completed"] = 3 ∧
      pollSleepsIn
        [PollEvent.poll "Pending", PollEvent.sleep 60000,
         PollEvent.poll "Pending", PollEvent.sleep 60000,
         PollEvent.poll "Completed"] = List.replicate 2 60000 := by
  have h := monitorTrainingJob_returns_first_terminal
    (fun i => if i < 2 then "Pending" else "Completed") 2 3
    (by simp [terminalStatuses])
    (fun j hj => by interval_cases j <;> simp [terminalStatuses])
    (by omega)
  exact ⟨by rw [h.1]; rfl, h.2.1, h.2.2⟩

/-- Claim C3: whenever the model and endpoint-config creation steps go
through, the existence probe alone decides the endpoint branch: a probe
reporting not-found leads to exactly one `createEndpoint` call, no
`updateEndpoint` call and (when the creation succeeds) a result with
status `Created`; a probe reporting found leads to exactly one
`updateEndpoint` call, no `createEndpoint` call and (when the update
succeeds) a result with status `Updated`. -/
theorem deploy_create_vs_update (c : DeployClient)
    (service model resourceId bucket : String)
    (input : ModelDeploymentInput) (p : String)
    (hpath : getS3ModelPath bucket service model input = Except.ok p)
    (hm : createModelStep c = Except.ok ())
    (hcfg : createConfigStep c = Except.ok ()) :
    ((∃ e, c.describeEndpointR = Except.error e ∧ isNotFoundError e = true) →
      countCalls (deploy c service model resourceId bucket input).2
          DeployCall.createEndpoint = 1 ∧
        countCalls (deploy c service model resourceId bucket input).2
          DeployCall.updateEndpoint = 0 ∧
        (c.createEndpointR = Except.ok () →
          (deploy c service model resourceId bucket input).1 =
            Except.ok
              ⟨(input.trainingJobName.getD
                  (service ++ "-" ++ model ++ "-" ++ resourceId)) ++ "-model",
                service ++ "-" ++ model ++ "-endpoint", "Created"⟩)) ∧
    (c.describeEndpointR = Except.ok () →
      countCalls (deploy c service model resourceId bucket input).2
          DeployCall.updateEndpoint = 1 ∧
        countCalls (deploy c service model resourceId bucket input).2
          DeployCall.createEndpoint = 0 ∧
        (c.updateEndpointR = Except.ok () →
          (deploy c service model resourceId bucket input).1 =
            Except.ok
              ⟨(input.trainingJobName.getD
                  (service ++ "-" ++ model ++ "-" ++ resourceId)) ++ "-model",
                service ++ "-" ++ model ++ "-endpoint", "Updated"⟩)) := by
  constructor
  · rintro ⟨e, hdesc, hnf⟩
    have hee : endpointExists c = Except.ok false := by
      unfold endpointExists
      rw [hdesc]
      simp [hnf]
    unfold deploy
    simp only [hpath, hm, hcfg, hee]
    cases hce : c.createEndpointR with
    | error e2 =>
      refine ⟨rfl, rfl, ?_⟩
      intro hok
      rw [hok] at hce
      injection hok
    | ok u =>
      exact ⟨rfl, rfl, fun _ => rfl⟩
  · intro hdesc
    have hee : endpointExists c = Except.ok true := by
      unfold endpointExists
      rw [hdesc]
    unfold deploy
    simp only [hpath, hm, hcfg, hee]
    cases hcu : c.updateEndpointR with
    | error e2 =>
      refine ⟨rfl, rfl, ?_⟩
      intro hok
      rw [hok] at hcu
      injection hok
    | ok u =>
      exact ⟨rfl, rfl, fun _ => rfl⟩

/-- Witness for C3: one client whose describe call reports
`ResourceNotFound` (endpoint created) and one whose describe call
succeeds (endpoint updated). -/
theorem deploy_create_vs_update_witness :
    countCalls (deploy
        ⟨Except.ok (), Except.ok (),
          Except.error ⟨"ResourceNotFound", "no such endpoint"⟩,
          Except.ok (), Except.ok ()⟩
        "svc" "model" "1700-4242" "bkt"
        ⟨none, some "job-1"⟩).2 DeployCall.createEndpoint = 1 ∧
      countCalls (deploy
        ⟨Except.ok (), Except.ok (),
          Except.error ⟨"ResourceNotFound", "no such endpoint"⟩,
          Except.ok (), Except.ok ()⟩
        "svc" "model" "1700-4242" "bkt"
        ⟨none, some "job-1"⟩).2 DeployCall.updateEndpoint = 0 ∧
      (deploy
        ⟨Except.ok (), Except.ok (),
          Except.error ⟨"ResourceNotFound", "no such endpoint"⟩,
          Except.ok (), Except.ok ()⟩
        "svc" "model" "1700-4242" "bkt"
        ⟨none, some "job-1"⟩).1 =
        Except.ok ⟨"job-1-model", "svc-model-endpoint", "Created"⟩ ∧
      countCalls (deploy
        ⟨Except.ok (), Except.ok (), Except.ok (),
          Except.ok (), Except.ok ()⟩
        "svc" "model" "1700-4242" "bkt"
        ⟨none, some "job-1"⟩).2 DeployCall.updateEndpoint = 1 ∧
      countCalls (deploy
        ⟨Except.ok (), Except.ok (), Except.ok (),
          Except.ok (), Except.ok ()⟩
        "svc" "model" "1700-4242" "bkt"
        ⟨none, some "job-1"⟩).2 DeployCall.createEndpoint = 0 ∧
      (deploy
        ⟨Except.ok (), Except.ok (), Except.ok (),
          Except.ok (), Except.ok ()⟩
        "svc" "model" "1700-4242" "bkt"
        ⟨none, some "job-1"⟩).1 =
        Except.ok ⟨"job-1-model", "svc-model-endpoint", "Updated"⟩ := by
  have h1 := (deploy_create_vs_update
    ⟨Except.ok (), Except.ok (),
      Except.error ⟨"ResourceNotFound", "no such endpoint"⟩,
      Except.ok (), Except.ok ()⟩
    "svc" "model" "1700-4242" "bkt" ⟨none, some "job-1"⟩
    "s3://bkt/svc/model/job-1/output/model.tar.gz" rfl rfl rfl).1
    ⟨⟨"ResourceNotFound", "no such endpoint"⟩, rfl, rfl⟩
  have h2 := (deploy_create_vs_update
    ⟨Except.ok (), Except.ok (), Except.ok (),
      Except.ok (), Except.ok ()⟩
    "svc" "model" "1700-4242" "bkt" ⟨none, some "job-1"⟩
    "s3://bkt/svc/model/job-1/output/model.tar.gz" rfl rfl rfl).2 rfl
  refine ⟨h1.1, h1.2.1, ?_, h2.1, h2.2.1, ?_⟩
  · rw [h1.2.2 rfl]
    rfl
  · rw [h2.2.2 rfl]
    rfl

/-- Claim C6: the effective per-call configuration is the layered
shallow merge of built-in defaults, instance configuration and per-call
options: per field, a value present in the call options wins, otherwise
a value present in the instance configuration, otherwise the built-in
default (3 / 30000 / 2 for retry, enabled for validation and
monitoring; a call-level validator or callback entirely replaces the
instance-level one).  In particular, an instance `maxAttempts` of 3
with a call-level 5 gives 5, and with an empty call retry block
gives 3. -/
theorem getEffectiveConfig_layered_merge {V : Type u} {M : Type v}
    (cfg : SageMakerInferenceConfig V M)
    (call : InferenceCallOptions V M) :
    ((getEffectiveConfig (mkInstanceConfig cfg) call).retry.maxAttempts =
        (call.retry.maxAttempts.orElse fun _ =>
          cfg.retry.maxAttempts).getD 3 ∧
      (getEffectiveConfig (mkInstanceConfig cfg) call).retry.timeoutMs =
        (call.retry.timeoutMs.orElse fun _ =>
          cfg.retry.timeoutMs).getD 30000 ∧
      (getEffectiveConfig (mkInstanceConfig cfg) call).retry.backoffMultiplier =
        (call.retry.backoffMultiplier.orElse fun _ =>
          cfg.retry.backoffMultiplier).getD 2 ∧
      (getEffectiveConfig (mkInstanceConfig cfg) call).validation.enabled =
        (call.validation.enabled.orElse fun _ =>
          cfg.validation.enabled).getD true ∧
      (getEffectiveConfig (mkInstanceConfig cfg) call).monitoring.enabled =
        (call.monitoring.enabled.orElse fun _ =>
          cfg.monitoring.enabled).getD true ∧
      (getEffectiveConfig (mkInstanceConfig cfg) call).validation.customValidator =
        (call.validation.customValidator.orElse fun _ =>
          cfg.validation.customValidator) ∧
      (getEffectiveConfig (mkInstanceConfig cfg) call).monitoring.metricsCallback =
        (call.monitoring.metricsCallback.orElse fun _ =>
          cfg.monitoring.metricsCallback)) ∧
    (getEffectiveConfig
        (mkInstanceConfig
          (⟨⟨some 3, none, none⟩, {}, {}, {}⟩ :
            SageMakerInferenceConfig V M))
        ⟨⟨some 5, none, none⟩, {}, {}⟩).retry.maxAttempts = 5 ∧
    (getEffectiveConfig
        (mkInstanceConfig
          (⟨⟨some 3, none, none⟩, {}, {}, {}⟩ :
            SageMakerInferenceConfig V M))
        ⟨⟨none, none, none⟩, {}, {}⟩).retry.maxAttempts = 3 := by
  obtain ⟨⟨ra, rt, rb⟩, ⟨ve, vv⟩, ⟨me, mc⟩⟩ := call
  refine ⟨⟨?_, ?_, ?_, ?_, ?_, ?_, ?_⟩, rfl, rfl⟩
  · cases ra <;> rfl
  · cases rt <;> rfl
  · cases rb <;> rfl
  · cases ve <;> rfl
  · cases me <;> rfl
  · cases vv <;> rfl
  · cases mc <;> rfl

theorem normalizeConcurrency_pos (c : Nat) : 0 < normalizeConcurrency c := by
  unfold normalizeConcurrency
  split <;> omega

theorem chunksOfAux_nil {π : Type u} (w n : Nat) :
    chunksOfAux w n ([] : List π) = [] := by
  cases n <;> rfl

theorem chunksOfAux_ne_nil {π : Type u} (w n : Nat) (l : List π)
    (hl : l ≠ []) (hn : l.length ≤ n) : chunksOfAux w n l ≠ [] := by
  cases l with
  | nil => exact absurd rfl hl
  | cons p l' =>
    cases n with
    | zero => simp at hn
    | succ n => simp [chunksOfAux]

theorem chunksOfAux_flatten {π : Type u} (w : Nat) (hw : w ≠ 0) :
    ∀ (n : Nat) (l : List π), l.length ≤ n →
      (chunksOfAux w n l).flatten = l := by
  intro n
  induction n with
  | zero =>
    intro l hl
    cases l with
    | nil => rfl
    | cons p l' => simp at hl
  | succ n ih =>
    intro l hl
    cases l with
    | nil => rfl
    | cons p l' =>
      show ((p :: l').take w :: chunksOfAux w n ((p :: l').drop w)).flatten =
        p :: l'
      rw [List.flatten_cons, ih _ (by
        simp only [List.length_drop, List.length_cons]
        simp only [List.length_cons] at hl
        omega)]
      exact List.take_append_drop w (p :: l')

theorem chunksOf_flatten {π : Type u} (w : Nat) (hw : w ≠ 0) (l : List π) :
    (chunksOf w l).flatten = l :=
  chunksOfAux_flatten w hw l.length l le_rfl

theorem chunksOfAux_sizes {π : Type u} (w : Nat) (hw : w ≠ 0) :
    ∀ (n : Nat) (l : List π), l.length ≤ n →
      ∀ win ∈ chunksOfAux w n l, win ≠ [] ∧ win.length ≤ w := by
  intro n
  induction n with
  | zero =>
    intro l hl win hwin
    cases l with
    | nil => exact absurd hwin (by simp [chunksOfAux_nil])
    | cons p l' => simp at hl
  | succ n ih =>
    intro l hl win hwin
    cases l with
    | nil => exact absurd hwin (by simp [chunksOfAux_nil])
    | cons p l' =>
      rcases List.mem_cons.mp hwin with h | h
      · subst h
        constructor
        · cases w with
          | zero => exact absurd rfl hw
          | succ w' => simp
        · rw [List.length_take]
          omega
      · exact ih ((p :: l').drop w) (by
          simp only [List.length_drop, List.length_cons]
          simp only [List.length_cons] at hl
          omega) win h

theorem chunksOf_sizes {π : Type u} (w : Nat) (hw : w ≠ 0) (l : List π) :
    ∀ win ∈ chunksOf w l, win ≠ [] ∧ win.length ≤ w :=
  chunksOfAux_sizes w hw l.length l le_rfl

theorem chunksOfAux_dropLast_full {π : Type u} (w : Nat) (hw : w ≠ 0) :
    ∀ (n : Nat) (l : List π), l.length ≤ n →
      ∀ win ∈ (chunksOfAux w n l).dropLast, win.length = w := by
  intro n
  induction n with
  | zero =>
    intro l hl win hwin
    cases l with
    | nil => exact absurd hwin (by simp [chunksOfAux_nil])
    | cons p l' => simp at hl
  | succ n ih =>
    intro l hl win hwin
    cases l with
    | nil => exact absurd hwin (by simp [chunksOfAux_nil])
    | cons p l' =>
      have hstep : chunksOfAux w (n + 1) (p :: l') =
          (p :: l').take w :: chunksOfAux w n ((p :: l').drop w) := rfl
      rw [hstep] at hwin
      by_cases hrest : chunksOfAux w n ((p :: l').drop w) = []
      · rw [hrest] at hwin
        exact absurd hwin (by simp)
      · rw [List.dropLast_cons_of_ne_nil hrest] at hwin
        have hdrop : (p :: l').drop w ≠ [] := by
          intro habs
          rw [habs, chunksOfAux_nil] at hrest
          exact hrest rfl
        have hlen : w < (p :: l').length := by
          have : 0 < ((p :: l').drop w).length := List.length_pos.mpr hdrop
          simp only [List.length_drop] at this
          omega
        rcases List.mem_cons.mp hwin with h | h
        · subst h
          rw [List.length_take]
          omega
        · exact ih ((p :: l').drop w) (by
            simp only [List.length_drop, List.length_cons]
            simp only [List.length_cons] at hl
            omega) win h

theorem chunksOf_dropLast_full {π : Type u} (w : Nat) (hw : w ≠ 0)
    (l : List π) : ∀ win ∈ (chunksOf w l).dropLast, win.length = w :=
  chunksOfAux_dropLast_full w hw l.length l le_rfl

theorem windowResults_ok_mem {π : Type u} {α : Type v}
    (invoke : π → Except String α) :
    ∀ (l : List π) (rs : List α), windowResults invoke l = Except.ok rs →
      ∀ p ∈ l, ∃ v, invoke p = Except.ok v := by
  intro l
  induction l with
  | nil =>
    intro rs _ p hp
    exact absurd hp (List.not_mem_nil p)
  | cons q qs ih =>
    intro rs h p hp
    cases hi : invoke q with
    | error e =>
      unfold windowResults at h
      rw [hi] at h
      exact absurd h (by simp)
    | ok r =>
      cases hwr : windowResults invoke qs with
      | error e =>
        unfold windowResults at h
        rw [hi, hwr] at h
        exact absurd h (by simp)
      | ok rs2 =>
        rcases List.mem_cons.mp hp with hpq | hpq
        · exact ⟨r, hpq ▸ hi⟩
        · exact ih rs2 hwr p hpq

theorem windowResults_error_mem {π : Type u} {α : Type v}
    (invoke : π → Except String α) :
    ∀ (l : List π) (e : String), windowResults invoke l = Except.error e →
      ∃ p ∈ l, invoke p = Except.error e := by
  intro l
  induction l with
  | nil =>
    intro e h
    exact absurd h (by simp [windowResults])
  | cons q qs ih =>
    intro e h
    cases hi : invoke q with
    | error e2 =>
      unfold windowResults at h
      rw [hi] at h
      refine ⟨q, List.mem_cons_self q qs, ?_⟩
      rw [hi]
      simpa using h
    | ok r =>
      cases hwr : windowResults invoke qs with
      | error e2 =>
        unfold windowResults at h
        rw [hi, hwr] at h
        obtain ⟨p, hp, hpe⟩ := ih e2 hwr
        refine ⟨p, List.mem_cons_of_mem q hp, ?_⟩
        rw [hpe]
        simpa using h
      | ok rs2 =>
        unfold windowResults at h
        rw [hi, hwr] at h
        exact absurd h (by simp)

theorem windowResults_allOk {π : Type u} {α : Type v}
    (invoke : π → Except String α) :
    ∀ (l : List π), (∀ p ∈ l, ∃ v, invoke p = Except.ok v) →
      ∃ rs, windowResults invoke l = Except.ok rs := by
  intro l
  induction l with
  | nil => exact fun _ => ⟨[], rfl⟩
  | cons q qs ih =>
    intro h
    obtain ⟨v, hv⟩ := h q (List.mem_cons_self q qs)
    obtain ⟨rs, hrs⟩ := ih (fun p hp => h p (List.mem_cons_of_mem q hp))
    refine ⟨v :: rs, ?_⟩
    unfold windowResults
    rw [hv, hrs]

theorem windowResults_append {π : Type u} {α : Type v}
    (invoke : π → Except String α) :
    ∀ (l₁ l₂ : List π) (r₁ r₂ : List α),
      windowResults invoke l₁ = Except.ok r₁ →
      windowResults invoke l₂ = Except.ok r₂ →
      windowResults invoke (l₁ ++ l₂) = Except.ok (r₁ ++ r₂) := by
  intro l₁
  induction l₁ with
  | nil =>
    intro l₂ r₁ r₂ h1 h2
    have : r₁ = [] := by
      have h1' : Except.ok ([] : List α) = Except.ok r₁ := h1
      cases h1'
      rfl
    subst this
    exact h2
  | cons q qs ih =>
    intro l₂ r₁ r₂ h1 h2
    cases hi : invoke q with
    | error e =>
      unfold windowResults at h1
      rw [hi] at h1
      exact absurd h1 (by simp)
    | ok r =>
      cases hwr : windowResults invoke qs with
      | error e =>
        unfold windowResults at h1
        rw [hi, hwr] at h1
        exact absurd h1 (by simp)
      | ok rs2 =>
        unfold windowResults at h1
        rw [hi, hwr] at h1
        simp only [Except.ok.injEq] at h1
        subst h1
        show windowResults invoke (q :: (qs ++ l₂)) = _
        unfold windowResults
        rw [hi, ih l₂ rs2 r₂ hwr h2]
        simp

theorem runWindows_cons_error {π : Type u} {α : Type v}
    (invoke : π → Except String α) (win : List π) (wins : List (List π))
    (e : String) (hwr : windowResults invoke win = Except.error e) :
    runWindows invoke (win :: wins) = (Except.error e, [win]) := by
  unfold runWindows
  rw [hwr]

theorem runWindows_cons_ok {π : Type u} {α : Type v}
    (invoke : π → Except String α) (win : List π) (wins : List (List π))
    (rs : List α) (hwr : windowResults invoke win = Except.ok rs) :
    runWindows invoke (win :: wins) =
      ((runWindows invoke wins).1.map (fun others => rs ++ others),
        win :: (runWindows invoke wins).2) := by
  conv_lhs => unfold runWindows
  rw [hwr]

theorem runWindows_trace_init {π : Type u} {α : Type v}
    (invoke : π → Except String α) :
    ∀ ws : List (List π), ∃ rest, (runWindows invoke ws).2 ++ rest = ws := by
  intro ws
  induction ws with
  | nil => exact ⟨[], rfl⟩
  | cons win wins ih =>
    cases hwr : windowResults invoke win with
    | error e =>
      refine ⟨wins, ?_⟩
      rw [runWindows_cons_error invoke win wins e hwr]
      rfl
    | ok rs =>
      obtain ⟨rest, hrest⟩ := ih
      refine ⟨rest, ?_⟩
      rw [runWindows_cons_ok invoke win wins rs hwr]
      simp only [List.cons_append, List.cons.injEq, true_and]
      exact hrest

theorem runWindows_dropLast_ok {π : Type u} {α : Type v}
    (invoke : π → Except String α) :
    ∀ ws : List (List π), ∀ win ∈ (runWindows invoke ws).2.dropLast,
      ∀ p ∈ win, ∃ v, invoke p = Except.ok v := by
  intro ws
  induction ws with
  | nil =>
    intro win hwin
    exact absurd hwin (List.not_mem_nil win)
  | cons w0 wins ih =>
    cases hwr : windowResults invoke w0 with
    | error e =>
      intro win hwin
      rw [runWindows_cons_error invoke w0 wins e hwr] at hwin
      exact absurd hwin (List.not_mem_nil win)
    | ok rs =>
      intro win hwin
      rw [runWindows_cons_ok invoke w0 wins rs hwr] at hwin
      by_cases htr : (runWindows invoke wins).2 = []
      · rw [htr] at hwin
        exact absurd hwin (List.not_mem_nil win)
      · rw [List.dropLast_cons_of_ne_nil htr] at hwin
        rcases List.mem_cons.mp hwin with h | h
        · subst h
          exact windowResults_ok_mem invoke win rs hwr
        · exact ih win h

theorem runWindows_error {π : Type u} {α : Type v}
    (invoke : π → Except String α) :
    ∀ (ws : List (List π)) (e : String),
      (runWindows invoke ws).1 = Except.error e →
      ∃ win ∈ ws, windowResults invoke win = Except.error e := by
  intro ws
  induction ws with
  | nil =>
    intro e h
    exact absurd h (by simp [runWindows])
  | cons w0 wins ih =>
    intro e h
    cases hwr : windowResults invoke w0 with
    | error e2 =>
      rw [runWindows_cons_error invoke w0 wins e2 hwr] at h
      simp only [Except.error.injEq] at h
      subst h
      exact ⟨w0, List.mem_cons_self w0 wins, hwr⟩
    | ok rs =>
      rw [runWindows_cons_ok invoke w0 wins rs hwr] at h
      cases hrest : (runWindows invoke wins).1 with
      | error e2 =>
        rw [hrest] at h
        simp only [Except.map, Except.error.injEq] at h
        subst h
        obtain ⟨win, hwin, hw⟩ := ih e2 hrest
        exact ⟨win, List.mem_cons_of_mem w0 hwin, hw⟩
      | ok rs2 =>
        rw [hrest] at h
        exact absurd h (by simp [Except.map])

theorem runWindows_allOk {π : Type u} {α : Type v}
    (invoke : π → Except String α) :
    ∀ ws : List (List π),
      (∀ win ∈ ws, ∃ rs, windowResults invoke win = Except.ok rs) →
      runWindows invoke ws = (windowResults invoke ws.flatten, ws) := by
  intro ws
  induction ws with
  | nil => exact fun _ => rfl
  | cons w0 wins ih =>
    intro h
    obtain ⟨rs, hrs⟩ := h w0 (List.mem_cons_self w0 wins)
    have hall : ∀ p ∈ wins.flatten, ∃ v, invoke p = Except.ok v := by
      intro p hp
      obtain ⟨win, hwin, hpw⟩ := List.mem_flatten.mp hp
      obtain ⟨rs2, hrs2⟩ := h win (List.mem_cons_of_mem w0 hwin)
      exact windowResults_ok_mem invoke win rs2 hrs2 p hpw
    obtain ⟨rt, hrt⟩ := windowResults_allOk invoke wins.flatten hall
    have hrest := ih (fun win hwin => h win (List.mem_cons_of_mem w0 hwin))
    rw [runWindows_cons_ok invoke w0 wins rs hrs, hrest]
    simp only [List.flatten_cons]
    rw [windowResults_append invoke w0 wins.flatten rs rt hrs hrt, hrt]
    rfl

theorem batchInvokeEndpoint_eq_run {π : Type u} {α : Type v}
    (invoke : π → Except String α) (batch : BatchConfig)
    (payloads : List π) (hne : payloads ≠ [])
    (hen : batch.enabled = true) :
    batchInvokeEndpoint invoke batch payloads =
      runWindows invoke
        (chunksOf (batch.maxBatchSize * normalizeConcurrency batch.concurrency)
          payloads) := by
  unfold batchInvokeEndpoint
  rw [if_neg (by simp [List.isEmpty_iff, hne]), if_neg (by simp [hen])]

/-- Claim C7: for a non-empty payload array (batch enabled, positive
`maxBatchSize`), the batch call slices the array into the consecutive
windows of size `maxBatchSize * concurrency` (their concatenation is
the original array, every window is non-empty and no larger than the
window size, and every window but possibly the last is full); the
windows actually issued form an initial segment of that window list, a
window is issued only after every call of the preceding windows
succeeded (window boundaries are barriers), an all-success run issues
every window and returns every result in payload order, and any failure
rejects the whole call with the error of a failing payload, returning
no partial results. -/
theorem batchInvokeEndpoint_windows {π : Type u} {α : Type v}
    (invoke : π → Except String α) (batch : BatchConfig)
    (payloads : List π) (hne : payloads ≠ [])
    (hen : batch.enabled = true) (hmbs : 0 < batch.maxBatchSize) :
    (chunksOf (batch.maxBatchSize * normalizeConcurrency batch.concurrency)
        payloads).flatten = payloads ∧
    (∀ win ∈ chunksOf
        (batch.maxBatchSize * normalizeConcurrency batch.concurrency)
        payloads,
      win ≠ [] ∧
        win.length ≤ batch.maxBatchSize * normalizeConcurrency batch.concurrency) ∧
    (∀ win ∈ (chunksOf
        (batch.maxBatchSize * normalizeConcurrency batch.concurrency)
        payloads).dropLast,
      win.length = batch.maxBatchSize * normalizeConcurrency batch.concurrency) ∧
    (∃ rest, (batchInvokeEndpoint invoke batch payloads).2 ++ rest =
      chunksOf (batch.maxBatchSize * normalizeConcurrency batch.concurrency)
        payloads) ∧
    (∀ win ∈ (batchInvokeEndpoint invoke batch payloads).2.dropLast,
      ∀ p ∈ win, ∃ v, invoke p = Except.ok v) ∧
    ((∀ p ∈ payloads, ∃ v, invoke p = Except.ok v) →
      batchInvokeEndpoint invoke batch payloads =
        (windowResults invoke payloads,
          chunksOf (batch.maxBatchSize * normalizeConcurrency batch.concurrency)
            payloads)) ∧
    (∀ e, (batchInvokeEndpoint invoke batch payloads).1 = Except.error e →
      ∃ p ∈ payloads, invoke p = Except.error e) := by
  have hcpos := normalizeConcurrency_pos batch.concurrency
  have hw : batch.maxBatchSize * normalizeConcurrency batch.concurrency ≠ 0 := by
    have := Nat.mul_pos hmbs hcpos
    omega
  have heq := batchInvokeEndpoint_eq_run invoke batch payloads hne hen
  have hfl := chunksOf_flatten
    (batch.maxBatchSize * normalizeConcurrency batch.concurrency) hw payloads
  refine ⟨hfl, chunksOf_sizes _ hw payloads, chunksOf_dropLast_full _ hw
    payloads, ?_, ?_, ?_, ?_⟩
  · rw [heq]
    exact runWindows_trace_init invoke _
  · intro win hwin
    rw [heq] at hwin
    exact runWindows_dropLast_ok invoke _ win hwin
  · intro hall
    rw [heq]
    have hok : ∀ win ∈ chunksOf
        (batch.maxBatchSize * normalizeConcurrency batch.concurrency)
        payloads, ∃ rs, windowResults invoke win = Except.ok rs := by
      intro win hwin
      refine windowResults_allOk invoke win ?_
      intro p hp
      refine hall p ?_
      rw [← hfl]
      exact List.mem_flatten.mpr ⟨win, hwin, hp⟩
    rw [runWindows_allOk invoke _ hok, hfl]
  · intro e he
    rw [heq] at he
    obtain ⟨win, hwin, hwerr⟩ := runWindows_error invoke _ e he
    obtain ⟨p, hp, hpe⟩ := windowResults_error_mem invoke win e hwerr
    refine ⟨p, ?_, hpe⟩
    rw [← hfl]
    exact List.mem_flatten.mpr ⟨win, hwin, hp⟩

/-- Witness for C7: payloads `[1, 2, 3]` with `maxBatchSize = 2` and
`concurrency = 1` are issued as the windows `[[1, 2], [3]]` and all
results come back in order. -/
theorem batchInvokeEndpoint_windows_witness :
    (batchInvokeEndpoint (fun n : Nat => Except.ok (n + 1))
        ⟨true, 2, 1⟩ [1, 2, 3]).1 = Except.ok [2, 3, 4] ∧
      (batchInvokeEndpoint (fun n : Nat => Except.ok (n + 1))
        ⟨true, 2, 1⟩ [1, 2, 3]).2 = [[1, 2], [3]] := by
  have h := (batchInvokeEndpoint_windows (fun n : Nat => Except.ok (n + 1))
    ⟨true, 2, 1⟩ [1, 2, 3] (by simp) rfl (by decide)).2.2.2.2.2.1
    (fun p _ => ⟨p + 1, rfl⟩)
  rw [h]
  exact ⟨rfl, rfl⟩

/-- Counterexample to C8 as stated: with the empty payload array and
batching disabled, `batchInvokeEndpoint` resolves to `[]` instead of
rejecting, because the empty-array check precedes the enabled check. -/
theorem batchInvokeEndpoint_disabled_empty_resolves :
    batchInvokeEndpoint (fun n : Nat => Except.ok n)
      ⟨false, 10, 3⟩ ([] : List Nat) = (Except.ok [], []) := rfl

/-- Claim C8 amended: for every NON-EMPTY payload array, a call with
`batch.enabled = false` rejects immediately with the batch-disabled
error and issues no remote call (the empty array resolves to `[]`
before the enabled check is reached). -/
theorem batchInvokeEndpoint_disabled_rejects {π : Type u} {α : Type v}
    (invoke : π → Except String α) (batch : BatchConfig)
    (payloads : List π) (hne : payloads ≠ [])
    (hdis : batch.enabled = false) :
    batchInvokeEndpoint invoke batch payloads =
      (Except.error "Batch processing is not enabled", []) := by
  unfold batchInvokeEndpoint
  rw [if_neg (by simp [List.isEmpty_iff, hne]), if_pos (by simp [hdis])]

/-- Witness for the amended C8 at the one-element payload array. -/
theorem batchInvokeEndpoint_disabled_rejects_witness :
    batchInvokeEndpoint (fun n : Nat => Except.ok n)
      ⟨false, 10, 3⟩ [1] =
      (Except.error "Batch processing is not enabled", []) :=
  batchInvokeEndpoint_disabled_rejects (fun n : Nat => Except.ok n)
    ⟨false, 10, 3⟩ [1] (by simp) rfl

theorem listStartsWith_append (p rest : List Char) :
    listStartsWith (p ++ rest) p = true := by
  induction p with
  | nil =>
    show listStartsWith rest [] = true
    cases rest <;> rfl
  | cons a as ih => simp [listStartsWith, ih]

theorem listStartsWith_self (l : List Char) :
    listStartsWith l l = true := by
  induction l with
  | nil => rfl
  | cons a as ih => simp [listStartsWith, ih]

theorem listFindSub_of_startsWith (l pat : List Char)
    (h : listStartsWith l pat = true) : listFindSub l pat = true := by
  cases l with
  | nil =>
    cases pat with
    | nil => rfl
    | cons b bs => simp [listStartsWith] at h
  | cons a as => simp [listFindSub, h]

theorem listFindSub_append_left (a b pat : List Char)
    (h : listFindSub b pat = true) : listFindSub (a ++ b) pat = true := by
  induction a with
  | nil => exact h
  | cons x xs ih => simp [listFindSub, ih]

/-- Counterexample to C9 as stated: at service `svc`, model `mymodel`,
framework `pytorch` and timestamp 1234, the generated training-job name
is `svc-pytorch-1234`, which does not contain the model name at all. -/
theorem trainingJobName_missing_model :
    trainingJobName "svc" "pytorch" 1234 = "svc-pytorch-1234" ∧
      strContains (trainingJobName "svc" "pytorch" 1234) "mymodel" = false := by
  constructor
  · decide
  · decide

/-- Claim C9 amended: the training-job name generated at submission
time is the deterministic composition of the service name, the
framework tag and the submission timestamp only (each appears as a
component); the model name is not part of the generated name. -/
theorem trainingJobName_composition (service framework : String)
    (now : Nat) :
    trainingJobName service framework now =
      service ++ "-" ++ framework ++ "-" ++ toString now ∧
      strContains (trainingJobName service framework now) service = true ∧
      strContains (trainingJobName service framework now) framework = true ∧
      strContains (trainingJobName service framework now) (toString now) =
        true := by
  refine ⟨rfl, ?_, ?_, ?_⟩
  · unfold strContains trainingJobName
    rw [String.data_append, String.data_append, String.data_append,
      String.data_append, List.append_assoc, List.append_assoc,
      List.append_assoc]
    exact listFindSub_of_startsWith _ _ (listStartsWith_append _ _)
  · unfold strContains trainingJobName
    rw [String.data_append, String.data_append, String.data_append,
      String.data_append, List.append_assoc, List.append_assoc,
      List.append_assoc]
    refine listFindSub_append_left _ _ _ ?_
    refine listFindSub_append_left _ _ _ ?_
    exact listFindSub_of_startsWith _ _ (listStartsWith_append _ _)
  · unfold strContains trainingJobName
    rw [String.data_append]
    refine listFindSub_append_left _ _ _ ?_
    exact listFindSub_of_startsWith _ _ (listStartsWith_self _)

theorem executeWithRetry_invokeOp_first (wire : Nat → Except String JVal)
    (parsed : JVal) (f : JVal → JVal) (iid : String)
    (tm tv : Option String) (ee : Bool) (N m : Nat) (monE cb : Bool)
    (ep : String) (h0 : wire 0 = Except.ok parsed) :
    executeWithRetry (invokeOp wire f iid tm tv ee) N m monE cb ep 0 =
      (Except.ok (assembleResponse f parsed iid tm tv ee),
        RetryEvent.attempt 0 :: recordMetrics monE cb ⟨true, ep, none⟩) := by
  have hop : invokeOp wire f iid tm tv ee 0 =
      Except.ok (assembleResponse f parsed iid tm tv ee) := by
    unfold invokeOp
    rw [h0]
  have h := executeWithRetry_succeeds_from (invokeOp wire f iid tm tv ee)
    (fun _ => "") 0 (assembleResponse f parsed iid tm tv ee) N m monE cb ep
    (Nat.zero_le N) (fun j hj => absurd hj (Nat.not_lt_zero j)) hop 0 0 rfl
  simpa using h

/-- Claim C10: on the success path the output transform `f` is applied
twice, once to the parsed wire payload (the `data` field of the
assembled response) and once to the assembled response object itself,
so the caller receives
`f (\x7bdata: f parsedWire, inferenceId, targetModel, targetVariant,
explanation\x7d)`; with the identity transform the caller receives the
assembled response object itself. -/
theorem invokeEndpoint_double_transform (wire : Nat → Except String JVal)
    (parsed : JVal) (f : JVal → JVal) (N m : Nat) (monE cb : Bool)
    (ep iid : String) (tm tv : Option String) (ee venab : Bool)
    (h0 : wire 0 = Except.ok parsed) :
    (invokeEndpoint wire N m monE cb ep f venab none iid tm tv ee).1 =
      Except.ok (f (JVal.jobj
        [("data", f parsed), ("inferenceId", JVal.jstr iid),
         ("targetModel", optStr tm), ("targetVariant", optStr tv),
         ("explanation",
           if ee then objGet parsed "explanation" else JVal.jnull)])) ∧
    (invokeEndpoint wire N m monE cb ep (fun r => r) venab none iid tm
        tv ee).1 =
      Except.ok (JVal.jobj
        [("data", parsed), ("inferenceId", JVal.jstr iid),
         ("targetModel", optStr tm), ("targetVariant", optStr tv),
         ("explanation",
           if ee then objGet parsed "explanation" else JVal.jnull)]) := by
  constructor
  · unfold invokeEndpoint
    rw [executeWithRetry_invokeOp_first wire parsed f iid tm tv ee N m monE
      cb ep h0]
    cases venab with
    | false => rfl
    | true => rfl
  · unfold invokeEndpoint
    rw [executeWithRetry_invokeOp_first wire parsed (fun r => r) iid tm tv
      ee N m monE cb ep h0]
    cases venab with
    | false => rfl
    | true => rfl

/-- Witness for C10 at a concrete non-identity transform
`f v = [v]`: the caller receives the doubly wrapped value. -/
theorem invokeEndpoint_double_transform_witness :
    (invokeEndpoint (fun _ => Except.ok (JVal.jstr "res")) 3 2 true true
        "ep" (fun v => JVal.jarr [v]) true none "i1" none none false).1 =
      Except.ok (JVal.jarr [JVal.jobj
        [("data", JVal.jarr [JVal.jstr "res"]),
         ("inferenceId", JVal.jstr "i1"),
         ("targetModel", JVal.jnull), ("targetVariant", JVal.jnull),
         ("explanation", JVal.jnull)]]) ∧
    (invokeEndpoint (fun _ => Except.ok (JVal.jstr "res")) 3 2 true true
        "ep" (fun r => r) true none "i1" none none false).1 =
      Except.ok (JVal.jobj
        [("data", JVal.jstr "res"), ("inferenceId", JVal.jstr "i1"),
         ("targetModel", JVal.jnull), ("targetVariant", JVal.jnull),
         ("explanation", JVal.jnull)]) := by
  have h := invokeEndpoint_double_transform
    (fun _ => Except.ok (JVal.jstr "res")) (JVal.jstr "res")
    (fun v => JVal.jarr [v]) 3 2 true true "ep" "i1" none none false true
    rfl
  exact ⟨h.1, h.2⟩

/-- Counterexample to C5 as stated: with attempt budget
`maxAttempts = 3` (which would mean 4 attempts if validation failures
were retried), a response failing the custom validator produces the
validation error after exactly ONE attempt, no backoff sleep, and even
a success metrics event: the validation failure is not routed through
the retry path at all. -/
theorem invokeEndpoint_validation_retry_refuted :
    invokeEndpoint (fun _ => Except.ok (JVal.jstr "r")) 3 2 true true "ep"
        (fun r => r) true (some (fun _ => false)) "i" none none false =
      (Except.error "Custom validation failed for response",
        [RetryEvent.attempt 0,
          RetryEvent.metric ⟨true, "ep", none⟩]) ∧
      attemptsIn (invokeEndpoint (fun _ => Except.ok (JVal.jstr "r")) 3 2
        true true "ep" (fun r => r) true (some (fun _ => false)) "i" none
        none false).2 = 1 ∧
      sleepsIn (invokeEndpoint (fun _ => Except.ok (JVal.jstr "r")) 3 2
        true true "ep" (fun r => r) true (some (fun _ => false)) "i" none
        none false).2 = [] := by
  have h := executeWithRetry_invokeOp_first
    (fun _ => Except.ok (JVal.jstr "r")) (JVal.jstr "r") (fun r => r) "i"
    none none false 3 2 true true "ep" rfl
  have hmain : invokeEndpoint (fun _ => Except.ok (JVal.jstr "r")) 3 2
      true true "ep" (fun r => r) true (some (fun _ => false)) "i" none
      none false =
      (Except.error "Custom validation failed for response",
        [RetryEvent.attempt 0,
          RetryEvent.metric ⟨true, "ep", none⟩]) := by
    unfold invokeEndpoint
    rw [h]
    rfl
  rw [hmain]
  exact ⟨rfl, rfl, rfl⟩

/-- Claim C5 amended: a response that fails validation is NOT retried.
Validation runs once, after the retry wrapper has already returned a
successful response; the validation error is surfaced immediately (one
single attempt when the remote call succeeds at once, and a success
metrics event — not a failure event — has already been recorded). -/
theorem invokeEndpoint_validation_not_retried
    (wire : Nat → Except String JVal) (parsed : JVal) (f : JVal → JVal)
    (N m : Nat) (monE cb : Bool) (ep iid : String)
    (tm tv : Option String) (ee : Bool) (v : JVal → Bool)
    (h0 : wire 0 = Except.ok parsed)
    (hv : v (assembleResponse f parsed iid tm tv ee) = false) :
    invokeEndpoint wire N m monE cb ep f true (some v) iid tm tv ee =
      (Except.error "Custom validation failed for response",
        RetryEvent.attempt 0 :: recordMetrics monE cb ⟨true, ep, none⟩) ∧
      attemptsIn (invokeEndpoint wire N m monE cb ep f true (some v) iid
        tm tv ee).2 = 1 ∧
      sleepsIn (invokeEndpoint wire N m monE cb ep f true (some v) iid
        tm tv ee).2 = [] := by
  have hval : validateResponse (assembleResponse f parsed iid tm tv ee)
      true (some v) = Except.error "Custom validation failed for response" := by
    unfold validateResponse
    simp only [hv]
    rfl
  have hmain : invokeEndpoint wire N m monE cb ep f true (some v) iid tm
      tv ee =
      (Except.error "Custom validation failed for response",
        RetryEvent.attempt 0 :: recordMetrics monE cb ⟨true, ep, none⟩) := by
    unfold invokeEndpoint
    rw [executeWithRetry_invokeOp_first wire parsed f iid tm tv ee N m
      monE cb ep h0]
    simp only [if_true]
    rw [hval]
  refine ⟨hmain, ?_, ?_⟩
  · rw [hmain]
    show attemptsIn ([RetryEvent.attempt 0] ++
      recordMetrics monE cb ⟨true, ep, none⟩) = 1
    rw [attemptsIn_append, attemptsIn_recordMetrics]
    rfl
  · rw [hmain]
    show sleepsIn ([RetryEvent.attempt 0] ++
      recordMetrics monE cb ⟨true, ep, none⟩) = []
    rw [sleepsIn_append, sleepsIn_recordMetrics]
    rfl

/-- Witness for the amended C5 at a concrete always-rejecting
validator. -/
theorem invokeEndpoint_validation_not_retried_witness :
    invokeEndpoint (fun _ => Except.ok (JVal.jnum 7)) 5 2 true true "e2"
        (fun r => r) true (some (fun _ => false)) "i2" none none false =
      (Except.error "Custom validation failed for response",
        RetryEvent.attempt 0 ::
          recordMetrics true true ⟨true, "e2", none⟩) ∧
      attemptsIn (invokeEndpoint (fun _ => Except.ok (JVal.jnum 7)) 5 2
        true true "e2" (fun r => r) true (some (fun _ => false)) "i2" none
        none false).2 = 1 ∧
      sleepsIn (invokeEndpoint (fun _ => Except.ok (JVal.jnum 7)) 5 2
        true true "e2" (fun r => r) true (some (fun _ => false)) "i2" none
        none false).2 = [] :=
  invokeEndpoint_validation_not_retried (fun _ => Except.ok (JVal.jnum 7))
    (JVal.jnum 7) (fun r => r) 5 2 true true "e2" "i2" none none false
    (fun _ => false) rfl rfl
